import Mathlib

/-!
Shallow embedding of the personal-finance ledger (`app.py`): the `Entry`
data holder with its `to_dict` / `from_dict` conversions, and the `Ledger`
component (in-memory list of entries plus the persisted JSON file),
with its operations `add`, `delete`, `update`, `search`, `list_all`,
`total_balance`, `save`, `load` (as `ledgerInit`) and `export_csv`.

Modelling conventions:
* Python `float` amounts are modelled as exact rationals (`ℚ`);
  `float(x)` applied to a number is the identity.
* Python strings are Lean `String`s; Python compares strings by code
  points, modelled by the structural lexicographic order `lexLe` /
  `lexLt` on `String.data`.  `str.lower()` is `lowerStr` (`Char.toLower`
  on every character), and the Python substring test `a in b` is
  `pyContainsL` on character lists.
* `uuid4()` and `datetime.now().date().isoformat()` are nondeterministic
  inputs; they are passed in explicitly (`freshId` / `gen : Nat → String`
  and `today : String`).
* The JSON data file is modelled by `FileState`: `none` when the file is
  absent, `some (.err m)` when it exists but fails to read/parse as an
  array of records, `some (.ok recs)` when it parses to the record list
  `recs`.  A JSON object for an entry is an `EntryDict`: each schema key
  is present (`some v`) or absent (`none`).
-/

/-- Entry: one financial record (`app.py` lines 12–24).  The constructor
invariants (`amount` coerced to float, `id`/`date` defaulted) live in
`entryInit`; the structure itself holds the seven attributes. -/
structure Entry where
  id : String
  title : String
  amount : ℚ
  category : String
  kind : String
  note : String
  date : String
deriving DecidableEq, Repr

/-- EntryDict: a JSON record for one entry, as read by `Entry.from_dict`
(each field may be absent, `d.get(k, default)` supplies the default). -/
structure EntryDict where
  id : Option String
  title : Option String
  amount : Option ℚ
  category : Option String
  kind : Option String
  note : Option String
  date : Option String
deriving DecidableEq, Repr

/-- Python truthiness defaulting `x or d` for an optional string `x`:
`None` and the empty string are falsy, so both fall back to `d`. -/
def pyOrS (x : Option String) (d : String) : String :=
  match x with
  | none => d
  | some s => if s = "" then d else s

/-- Entry.__init__ (`app.py` lines 13–24): `id = id or str(uuid4())`,
`amount = float(amount)` (identity on our exact rationals),
`date = date or datetime.now().date().isoformat()`.  The generated uuid
and today's date are the explicit parameters `freshId` and `today`. -/
def entryInit (freshId today : String) (title : String) (amount : ℚ)
    (category : String) (kind : String) (note : String)
    (date : Option String) (id : Option String) : Entry :=
  { id := pyOrS id freshId
    title := title
    amount := amount
    category := category
    kind := kind
    note := note
    date := pyOrS date today }

/-- Entry.to_dict (`app.py` lines 26–35): every key is emitted. -/
def Entry.to_dict (e : Entry) : EntryDict :=
  { id := some e.id
    title := some e.title
    amount := some e.amount
    category := some e.category
    kind := some e.kind
    note := some e.note
    date := some e.date }

/-- Entry.from_dict (`app.py` lines 37–47): reads each key with its
default (`title`/`category`/`note` → `""`, `amount` → `0`,
`kind` → `"expense"`, `date`/`id` → `None`) and calls the constructor. -/
def Entry.from_dict (freshId today : String) (d : EntryDict) : Entry :=
  entryInit freshId today (d.title.getD "") (d.amount.getD 0)
    (d.category.getD "") (d.kind.getD "expense") (d.note.getD "")
    d.date d.id

/-- ParseOutcome: result of reading and JSON-parsing the data file. -/
inductive ParseOutcome where
  | ok : List EntryDict → ParseOutcome
  | err : String → ParseOutcome
deriving DecidableEq, Repr

/-- FileState: `none` when the data file does not exist, otherwise the
outcome of parsing it. -/
abbrev FileState := Option ParseOutcome

/-- Ledger state: the in-memory entry list plus the persisted file. -/
structure Ledger where
  entries : List Entry
  file : FileState
deriving DecidableEq, Repr

/-- Ledger.save (`app.py` lines 93–95): overwrite the data file with the
JSON array of `to_dict` records of the in-memory entries. -/
def Ledger.save (s : Ledger) : Ledger :=
  { s with file := some (.ok (s.entries.map Entry.to_dict)) }

/-- Ledger.__init__ + Ledger.load (`app.py` lines 50–52 and 97–107):
start from the given file state; a missing file or a read/parse failure
leaves the entry list empty, otherwise each record is reconstructed with
`Entry.from_dict` (the `i`-th generated uuid is `gen i`). -/
def ledgerInit (gen : Nat → String) (today : String) (f : FileState) : Ledger :=
  match f with
  | none => { entries := [], file := none }
  | some (.err m) => { entries := [], file := some (.err m) }
  | some (.ok recs) =>
      { entries := recs.mapIdx (fun i d => Entry.from_dict (gen i) today d)
        file := some (.ok recs) }

/-- Ledger.add (`app.py` lines 54–56): append, then save. -/
def Ledger.add (e : Entry) (s : Ledger) : Ledger :=
  Ledger.save { s with entries := s.entries ++ [e] }

/-- Ledger.delete (`app.py` lines 58–64): keep the entries whose id
differs (`remaining`), save only when the length dropped (`changed`),
and return whether it did; the Python locals `before`/`changed` are
inlined into the condition. -/
def Ledger.delete (entry_id : String) (s : Ledger) : Bool × Ledger :=
  if (s.entries.filter (fun e => !(e.id == entry_id))).length < s.entries.length then
    (true, Ledger.save { s with entries := s.entries.filter (fun e => !(e.id == entry_id)) })
  else
    (false, { s with entries := s.entries.filter (fun e => !(e.id == entry_id)) })

/-- UpdateFields: the keyword arguments accepted by `Ledger.update`.
Every field of `Entry` passes the `hasattr` check, so all seven can be
set; a `none` value is skipped (`v is not None`).  Keyword arguments
that are not attribute names fail `hasattr` and have no effect, so they
are not represented. -/
structure UpdateFields where
  id : Option String
  title : Option String
  amount : Option ℚ
  category : Option String
  kind : Option String
  note : Option String
  date : Option String
deriving DecidableEq, Repr

/-- Attribute assignment loop of `Ledger.update` (`app.py` lines 69–75):
each provided (non-`None`) field overwrites the attribute; `amount` goes
through `float` (identity here). -/
def applyFields (f : UpdateFields) (e : Entry) : Entry :=
  { id := f.id.getD e.id
    title := f.title.getD e.title
    amount := f.amount.getD e.amount
    category := f.category.getD e.category
    kind := f.kind.getD e.kind
    note := f.note.getD e.note
    date := f.date.getD e.date }

/-- First-match update on the entry list: the `for`/`return` loop of
`Ledger.update` mutates only the first entry whose id matches. -/
def updateFirst (entry_id : String) (f : UpdateFields) :
    List Entry → Option (Entry × List Entry)
  | [] => none
  | e :: rest =>
      if e.id == entry_id then
        some (applyFields f e, applyFields f e :: rest)
      else
        (updateFirst entry_id f rest).map (fun p => (p.1, e :: p.2))

/-- Ledger.update (`app.py` lines 66–78): update the first matching
entry, save, and return it; return `None` (and do not save) when no id
matches. -/
def Ledger.update (entry_id : String) (f : UpdateFields) (s : Ledger) :
    Option Entry × Ledger :=
  match updateFirst entry_id f s.entries with
  | none => (none, s)
  | some (e, l) => (some e, Ledger.save { s with entries := l })

/-- Lowercasing of a Python string (`str.lower()`), character by
character. -/
def lowerStr (s : String) : String :=
  ⟨s.data.map Char.toLower⟩

/-- Structural test that `hay` starts with `needle` (on code points). -/
def pyStartsWith : List Char → List Char → Bool
  | [], _ => true
  | _ :: _, [] => false
  | a :: as, b :: bs => (a == b) && pyStartsWith as bs

/-- Python's substring test `needle in hay` on character lists: some
suffix of `hay` starts with `needle`. -/
def pyContainsL (needle : List Char) : List Char → Bool
  | [] => pyStartsWith needle []
  | b :: rest => pyStartsWith needle (b :: rest) || pyContainsL needle rest

/-- Ledger.search (`app.py` lines 80–82): lower the keyword once, keep
the entries whose lowered title, category or note contains it. -/
def Ledger.search (keyword : String) (s : Ledger) : List Entry :=
  let kw := lowerStr keyword
  s.entries.filter (fun e =>
    pyContainsL kw.data (lowerStr e.title).data ||
    pyContainsL kw.data (lowerStr e.category).data ||
    pyContainsL kw.data (lowerStr e.note).data)

/-- Lexicographic `≤` on code-point lists, as Python compares strings. -/
def lexLe : List Char → List Char → Bool
  | [], _ => true
  | _ :: _, [] => false
  | a :: as, b :: bs => if a < b then true else if b < a then false else lexLe as bs

/-- Sort key of `Ledger.list_all`: `x.date or ""` (the empty string is
falsy, so it maps to itself). -/
def sortKey (e : Entry) : String :=
  if e.date = "" then "" else e.date

/-- Descending-key comparison used to model `sorted(..., reverse=True)`:
`a` may come before `b` exactly when `key b ≤ key a`. -/
def descRel (a b : Entry) : Prop :=
  lexLe (sortKey b).data (sortKey a).data = true

instance : DecidableRel descRel :=
  fun _ _ => inferInstanceAs (Decidable (_ = true))

/-- Ledger.list_all (`app.py` lines 84–86): Python's `sorted` is a
stable sort, modelled by the stable `List.insertionSort` over the
descending key preorder `descRel`. -/
def Ledger.list_all (s : Ledger) : List Entry :=
  List.insertionSort descRel s.entries

/-- Totals returned by `Ledger.total_balance`. -/
structure Totals where
  income : ℚ
  expense : ℚ
  balance : ℚ
deriving DecidableEq, Repr

/-- Ledger.total_balance (`app.py` lines 88–91): two filtered sums and
their difference. -/
def Ledger.total_balance (s : Ledger) : Totals :=
  let income := ((s.entries.filter (fun e => e.kind == "income")).map Entry.amount).sum
  let expense := ((s.entries.filter (fun e => e.kind == "expense")).map Entry.amount).sum
  { income := income, expense := expense, balance := income - expense }

/-- Column order of the exported CSV (`app.py` line 110). -/
def csvFieldnames : List String :=
  ["id", "date", "title", "category", "kind", "amount", "note"]

/-- CSV data row for one entry: its `to_dict` values in `csvFieldnames`
order; the numeric amount is rendered by `toString` (the concrete digit
rendering of `csv`/`str` is abstracted, no claim depends on it). -/
def csvRow (e : Entry) : List String :=
  [e.id, e.date, e.title, e.category, e.kind, toString e.amount, e.note]

/-- Ledger.export_csv (`app.py` lines 109–117): write the header row and
one row per entry in `list_all` order to `csv_path`, and return the
path.  The result pairs the returned path with the written rows. -/
def Ledger.export_csv (csv_path : String) (s : Ledger) : String × List (List String) :=
  (csv_path, csvFieldnames :: (Ledger.list_all s).map csvRow)

/-- Spec-side substring relation: `needle` occurs contiguously in
`hay`. -/
def SubStr (needle hay : List Char) : Prop :=
  ∃ p q, hay = p ++ needle ++ q

/-- Mutating calls of the Ledger API, for reasoning about sequences of
operations. -/
inductive LedgerOp where
  | addE : Entry → LedgerOp
  | delE : String → LedgerOp
  | updE : String → UpdateFields → LedgerOp
deriving Repr

/-- State effect of one mutating call (return values dropped). -/
def applyOp (op : LedgerOp) (s : Ledger) : Ledger :=
  match op with
  | .addE e => Ledger.add e s
  | .delE i => (Ledger.delete i s).2
  | .updE i f => (Ledger.update i f s).2

/-- State after a sequence of mutating calls. -/
def applyOps (ops : List LedgerOp) (s : Ledger) : Ledger :=
  ops.foldl (fun t op => applyOp op t) s

/-- Records currently persisted: an absent file persists nothing, a
corrupt file persists nothing usable (this case never arises after a
`save`). -/
def persistedRecords (f : FileState) : List EntryDict :=
  match f with
  | none => []
  | some (.err _) => []
  | some (.ok recs) => recs

/-- Consistency between disk and memory: the persisted records are
exactly the serialized in-memory entries. -/
def Consistent (s : Ledger) : Prop :=
  persistedRecords s.file = s.entries.map Entry.to_dict

/-- Concrete entry with an empty `date`, for the round-trip
counterexample. -/
def eRtCx : Entry :=
  { id := "a", title := "t", amount := 1, category := "food",
    kind := "expense", note := "", date := "" }

/-- Concrete well-formed entry for the round-trip witness. -/
def eRtW : Entry :=
  { id := "a-1", title := "lunch", amount := 1, category := "food",
    kind := "expense", note := "", date := "2024-02-29" }

/-- Concrete entry with an empty date, for the sort-order
counterexample. -/
def eSortEmpty : Entry :=
  { id := "e1", title := "undated", amount := 1, category := "c",
    kind := "expense", note := "", date := "" }

/-- Concrete entry with a proper date, for the sort-order
counterexample. -/
def eSortDated : Entry :=
  { id := "e2", title := "dated", amount := 1, category := "c",
    kind := "expense", note := "", date := "2024-01-01" }

/-- Two-entry ledger holding an undated and a dated entry. -/
def sSortCx : Ledger :=
  { entries := [eSortEmpty, eSortDated], file := none }

/-- Concrete two-entry ledger matching the spec's totals example. -/
def sTotW : Ledger :=
  { entries :=
      [{ id := "i1", title := "salary", amount := 100, category := "job",
         kind := "income", note := "", date := "2024-01-02" },
       { id := "x1", title := "food", amount := 40, category := "meal",
         kind := "expense", note := "", date := "2024-01-03" }]
    file := none }

/-- Concrete entry with an unrecognized `kind`. -/
def eOtherKind : Entry :=
  { id := "o1", title := "misc", amount := 7, category := "c",
    kind := "transfer", note := "", date := "2024-01-04" }

/-- Concrete one-entry ledger used by several witnesses. -/
def sOne : Ledger :=
  { entries :=
      [{ id := "a", title := "lunch", amount := 1, category := "food",
         kind := "expense", note := "n", date := "2024-01-01" }]
    file := some (.ok [Entry.to_dict
      { id := "a", title := "lunch", amount := 1, category := "food",
        kind := "expense", note := "n", date := "2024-01-01" }]) }

/-- Update that tries to overwrite the entry id. -/
def fSetId : UpdateFields :=
  { id := some "b", title := none, amount := none, category := none,
    kind := none, note := none, date := none }

/-- Update touching only the title, leaving the id field unset. -/
def fSetTitle : UpdateFields :=
  { id := none, title := some "dinner", amount := none, category := none,
    kind := none, note := none, date := none }

/-- Ledger with two distinct entries sharing one id (as could be loaded
from a file with duplicates). -/
def sDup : Ledger :=
  { entries :=
      [{ id := "d", title := "first", amount := 1, category := "c",
         kind := "expense", note := "", date := "2024-01-01" },
       { id := "d", title := "second", amount := 2, category := "c",
         kind := "expense", note := "", date := "2024-01-02" }]
    file := none }

/-- Totality of the lexicographic comparison on code-point lists. -/
theorem lexLe_total (x y : List Char) : lexLe x y = true ∨ lexLe y x = true := by
  induction x generalizing y with
  | nil => exact Or.inl rfl
  | cons a as ih =>
    cases y with
    | nil => exact Or.inr rfl
    | cons b bs =>
      rcases lt_trichotomy a b with h | h | h
      · exact Or.inl (by simp [lexLe, h])
      · subst h
        rcases ih bs with h2 | h2
        · exact Or.inl (by simp [lexLe, lt_irrefl, h2])
        · exact Or.inr (by simp [lexLe, lt_irrefl, h2])
      · exact Or.inr (by simp [lexLe, h])

/-- Transitivity of the lexicographic comparison on code-point lists. -/
theorem lexLe_trans {x y z : List Char} (hxy : lexLe x y = true)
    (hyz : lexLe y z = true) : lexLe x z = true := by
  induction x generalizing y z with
  | nil => rfl
  | cons a as ih =>
    cases y with
    | nil => simp [lexLe] at hxy
    | cons b bs =>
      cases z with
      | nil => simp [lexLe] at hyz
      | cons c cs =>
        simp only [lexLe] at hxy hyz ⊢
        by_cases hab : a < b
        · by_cases hbc : b < c
          · simp [lt_trans hab hbc]
          · by_cases hcb : c < b
            · simp [hbc, hcb] at hyz
            · have hbceq : b = c := le_antisymm (not_lt.mp hcb) (not_lt.mp hbc)
              subst hbceq
              simp [hab]
        · by_cases hba : b < a
          · simp [hab, hba] at hxy
          · have habeq : a = b := le_antisymm (not_lt.mp hba) (not_lt.mp hab)
            subst habeq
            simp [lt_irrefl] at hxy
            by_cases hac : a < c
            · simp [hac]
            · by_cases hca : c < a
              · simp [hac, hca] at hyz
              · simp [lt_irrefl, hac, hca] at hyz ⊢
                exact ih hxy hyz

/-- The only list lexicographically at most the empty list is the empty
list. -/
theorem lexLe_nil_right {x : List Char} (h : lexLe x [] = true) : x = [] := by
  cases x with
  | nil => rfl
  | cons a as => simp [lexLe] at h

instance : IsTotal Entry descRel :=
  ⟨fun a b => Or.symm (lexLe_total (sortKey a).data (sortKey b).data)⟩

instance : IsTrans Entry descRel :=
  ⟨fun _ _ _ hab hbc => lexLe_trans hbc hab⟩

/-- Characterization of the structural starts-with test. -/
theorem pyStartsWith_iff (n h : List Char) :
    pyStartsWith n h = true ↔ ∃ t, h = n ++ t := by
  induction n generalizing h with
  | nil => simp [pyStartsWith]
  | cons a as ih =>
    cases h with
    | nil => simp [pyStartsWith]
    | cons b bs =>
      simp only [pyStartsWith, Bool.and_eq_true, beq_iff_eq]
      constructor
      · rintro ⟨hab, h2⟩
        obtain ⟨t, rfl⟩ := (ih bs).mp h2
        exact ⟨t, by simp [hab]⟩
      · rintro ⟨t, ht⟩
        simp only [List.cons_append, List.cons.injEq] at ht
        obtain ⟨rfl, rfl⟩ := ht
        exact ⟨rfl, (ih _).mpr ⟨t, rfl⟩⟩

/-- Characterization of the Python substring test: `pyContainsL n h`
holds exactly when `n` occurs contiguously in `h`. -/
theorem pyContainsL_iff (n h : List Char) :
    pyContainsL n h = true ↔ SubStr n h := by
  induction h with
  | nil =>
    constructor
    · intro hl
      obtain ⟨t, ht⟩ := (pyStartsWith_iff n []).mp hl
      have hn : n = [] := by
        cases n with
        | nil => rfl
        | cons a as => exact absurd ht (by simp)
      exact ⟨[], [], by simp [hn]⟩
    · rintro ⟨p, q, hpq⟩
      have hpq2 := hpq.symm
      simp only [List.append_eq_nil] at hpq2
      simp [pyContainsL, hpq2.1.2, pyStartsWith]
  | cons b bs ih =>
    simp only [pyContainsL, Bool.or_eq_true]
    rw [pyStartsWith_iff, ih]
    constructor
    · rintro (⟨t, ht⟩ | ⟨p, q, rfl⟩)
      · exact ⟨[], t, by simpa using ht⟩
      · exact ⟨b :: p, q, by simp⟩
    · rintro ⟨p, q, hpq⟩
      cases p with
      | nil => exact Or.inl ⟨q, by simpa using hpq⟩
      | cons x xs =>
        right
        refine ⟨xs, q, ?_⟩
        simp only [List.cons_append, List.cons.injEq] at hpq
        exact hpq.2

/-- The empty needle occurs in every haystack. -/
theorem pyContainsL_nil (h : List Char) : pyContainsL [] h = true := by
  induction h with
  | nil => rfl
  | cons b bs ih => simp [pyContainsL, pyStartsWith]

/-- C1 (amended): for every Entry `e` whose `id` and `date` are
nonempty — as produced by the constructor — `from_dict (to_dict e)`
reproduces all seven fields of `e` exactly, whatever uuid and current
date the reconstruction would have defaulted to.  (For an entry with an
empty `id` or `date`, the constructor's falsy-defaulting replaces the
field, see `roundtrip_fails_on_empty_date`.) -/
theorem roundtrip_to_from_dict (freshId today : String) (e : Entry)
    (hid : e.id ≠ "") (hdate : e.date ≠ "") :
    Entry.from_dict freshId today (Entry.to_dict e) = e := by
  simp [Entry.from_dict, Entry.to_dict, entryInit, pyOrS, hid, hdate]

/-- C1 counterexample: the concrete entry `eRtCx` has `date = ""`, and
the round trip replaces its date with today's date, so the reconstructed
entry differs from `eRtCx`. -/
theorem roundtrip_fails_on_empty_date :
    Entry.from_dict "fresh" "2024-05-05" (Entry.to_dict eRtCx) ≠ eRtCx := by
  decide

/-- C1 witness: the amended round trip evaluated on a concrete entry. -/
theorem roundtrip_to_from_dict_witness :
    eRtW.id ≠ "" ∧ eRtW.date ≠ "" ∧
      Entry.from_dict "fresh" "2024-05-05" (Entry.to_dict eRtW) = eRtW :=
  ⟨by decide, by decide,
    roundtrip_to_from_dict "fresh" "2024-05-05" eRtW (by decide) (by decide)⟩

/-- C3: `total_balance` returns the sum of amounts over the entries of
kind `"income"`, the sum over those of kind `"expense"`, their
difference as the balance, and an entry of any other kind contributes to
neither sum. -/
theorem total_balance_correct (s : Ledger) :
    (Ledger.total_balance s).income =
      ((s.entries.filter (fun e => e.kind == "income")).map Entry.amount).sum ∧
    (Ledger.total_balance s).expense =
      ((s.entries.filter (fun e => e.kind == "expense")).map Entry.amount).sum ∧
    (Ledger.total_balance s).balance =
      (Ledger.total_balance s).income - (Ledger.total_balance s).expense ∧
    ∀ e : Entry, e.kind ≠ "income" → e.kind ≠ "expense" →
      Ledger.total_balance { s with entries := e :: s.entries } =
        Ledger.total_balance s := by
  refine ⟨rfl, rfl, rfl, ?_⟩
  intro e h1 h2
  have h1' : (e.kind == "income") = false := beq_eq_false_iff_ne.mpr h1
  have h2' : (e.kind == "expense") = false := beq_eq_false_iff_ne.mpr h2
  simp [Ledger.total_balance, List.filter_cons, h1', h2']

/-- C3 witness: the spec's totals example, plus a `"transfer"` entry
that contributes to neither sum. -/
theorem total_balance_correct_witness :
    eOtherKind.kind ≠ "income" ∧ eOtherKind.kind ≠ "expense" ∧
      Ledger.total_balance { sTotW with entries := eOtherKind :: sTotW.entries } =
        Ledger.total_balance sTotW ∧
      Ledger.total_balance sTotW = { income := 100, expense := 40, balance := 60 } :=
  ⟨by decide, by decide,
    (total_balance_correct sTotW).2.2.2 eOtherKind (by decide) (by decide),
    by
      have hne1 : ("expense" : String) ≠ "income" := by decide
      have hne2 : ("income" : String) ≠ "expense" := by decide
      norm_num [Ledger.total_balance, sTotW, List.filter_cons, hne1, hne2]⟩

/-- C4: `search` returns exactly the entries whose lower-cased title,
category or note contains the lower-cased keyword as a substring, and
the empty keyword returns every entry. -/
theorem search_correct (s : Ledger) (keyword : String) :
    (∀ e : Entry, e ∈ Ledger.search keyword s ↔ e ∈ s.entries ∧
      (SubStr (lowerStr keyword).data (lowerStr e.title).data ∨
       SubStr (lowerStr keyword).data (lowerStr e.category).data ∨
       SubStr (lowerStr keyword).data (lowerStr e.note).data)) ∧
    Ledger.search "" s = s.entries := by
  constructor
  · intro e
    simp only [Ledger.search, List.mem_filter, Bool.or_eq_true, pyContainsL_iff]
    rw [or_assoc]
  · have h0 : (lowerStr "").data = ([] : List Char) := rfl
    unfold Ledger.search
    refine List.filter_eq_self.mpr ?_
    intro e _
    rw [h0]
    simp [pyContainsL_nil]

/-- C4 witness: searching the one-entry ledger with the empty keyword
returns its whole entry list. -/
theorem search_correct_witness :
    Ledger.search "" sOne = sOne.entries :=
  (search_correct sOne "").2

/-- C5: deleting an id that no entry carries returns `false` and leaves
the ledger — both the in-memory list and the persisted file —
unchanged. -/
theorem delete_unknown_id (s : Ledger) (entry_id : String)
    (h : ∀ e ∈ s.entries, e.id ≠ entry_id) :
    Ledger.delete entry_id s = (false, s) := by
  have hf : s.entries.filter (fun e => !(e.id == entry_id)) = s.entries :=
    List.filter_eq_self.mpr (fun e he => by simpa using h e he)
  simp [Ledger.delete, hf]

/-- C5 witness: deleting the unknown id `"zzz"` from the one-entry
ledger returns `false` and the very same state. -/
theorem delete_unknown_id_witness :
    (∀ e ∈ sOne.entries, e.id ≠ "zzz") ∧
      Ledger.delete "zzz" sOne = (false, sOne) :=
  ⟨by decide, delete_unknown_id sOne "zzz" (by decide)⟩

/-- C2 (amended): `list_all` returns a permutation of the entries,
sorted by `date` descending under the lexicographic code-point
comparison; entries whose date is empty carry the lowest key and
therefore sort last in descending order (once an empty-dated entry
appears, every later entry is empty-dated too). -/
theorem list_all_sorted_desc (s : Ledger) :
    (Ledger.list_all s).Perm s.entries ∧
    (Ledger.list_all s).Pairwise
      (fun a b => lexLe (sortKey b).data (sortKey a).data = true) ∧
    (Ledger.list_all s).Pairwise (fun a b => a.date = "" → b.date = "") := by
  have hs : (Ledger.list_all s).Pairwise descRel :=
    List.sorted_insertionSort descRel s.entries
  refine ⟨List.perm_insertionSort descRel s.entries, hs, hs.imp ?_⟩
  intro a b hab ha
  have hka : sortKey a = "" := by simp [sortKey, ha]
  unfold descRel at hab
  rw [hka] at hab
  have hb : (sortKey b).data = [] := lexLe_nil_right hab
  by_cases hdb : b.date = ""
  · exact hdb
  · exfalso
    have hkb : sortKey b = b.date := by simp [sortKey, hdb]
    rw [hkb] at hb
    exact hdb (String.ext hb)

/-- C2 counterexample: with one undated and one dated entry, `list_all`
places the dated entry first and the empty-dated entry last — not
first, as claimed. -/
theorem list_all_empty_date_not_first :
    Ledger.list_all sSortCx = [eSortDated, eSortEmpty] ∧
      eSortEmpty.date = "" ∧ eSortDated.date ≠ "" ∧ eSortDated ≠ eSortEmpty :=
  ⟨by decide, by decide, by decide, by decide⟩

/-- C2 witness: the amended ordering statement evaluated on the
two-entry ledger. -/
theorem list_all_sorted_desc_witness :
    (Ledger.list_all sSortCx).Perm sSortCx.entries ∧
    (Ledger.list_all sSortCx).Pairwise
      (fun a b => lexLe (sortKey b).data (sortKey a).data = true) ∧
    (Ledger.list_all sSortCx).Pairwise (fun a b => a.date = "" → b.date = "") :=
  list_all_sorted_desc sSortCx

/-- One mutating call keeps disk and memory consistent. -/
theorem consistent_applyOp (op : LedgerOp) (s : Ledger) (h : Consistent s) :
    Consistent (applyOp op s) := by
  cases op with
  | addE e => simp [applyOp, Ledger.add, Ledger.save, Consistent, persistedRecords]
  | delE i =>
    unfold applyOp Ledger.delete
    by_cases hc : (s.entries.filter (fun e => !(e.id == i))).length < s.entries.length
    · simp [hc, Ledger.save, Consistent, persistedRecords]
    · have heq : s.entries.filter (fun e => !(e.id == i)) = s.entries :=
        (List.filter_sublist s.entries).eq_of_length
          (le_antisymm (List.length_filter_le _ _) (not_lt.mp hc))
      simpa [hc, heq, Consistent] using h
  | updE i f =>
    show Consistent (Ledger.update i f s).2
    unfold Ledger.update
    cases hu : updateFirst i f s.entries with
    | none => exact h
    | some p =>
      obtain ⟨e1, l1⟩ := p
      simp [Ledger.save, Consistent, persistedRecords]

/-- A sequence of mutating calls keeps disk and memory consistent. -/
theorem consistent_applyOps (ops : List LedgerOp) (s : Ledger) (h : Consistent s) :
    Consistent (applyOps ops s) := by
  induction ops generalizing s with
  | nil => exact h
  | cons op rest ih => exact ih (applyOp op s) (consistent_applyOp op s h)

/-- C6: starting from a freshly constructed Ledger (no pre-existing data
file), after any sequence of Add/Delete/Update calls the persisted
records are exactly the serialized in-memory entries — in particular
this holds immediately after each call of the sequence, since every
prefix is itself such a sequence. -/
theorem mutation_persists_invariant (gen : Nat → String) (today : String)
    (ops : List LedgerOp) :
    persistedRecords (applyOps ops (ledgerInit gen today none)).file =
      (applyOps ops (ledgerInit gen today none)).entries.map Entry.to_dict :=
  consistent_applyOps ops (ledgerInit gen today none) rfl

/-- C6 witness: the invariant evaluated after a concrete add-then-delete
sequence from a fresh ledger. -/
theorem mutation_persists_invariant_witness :
    persistedRecords
        (applyOps [LedgerOp.delE "zzz"]
          (ledgerInit (fun _ => "u0") "2024-01-01" none)).file =
      (applyOps [LedgerOp.delE "zzz"]
          (ledgerInit (fun _ => "u0") "2024-01-01" none)).entries.map Entry.to_dict :=
  mutation_persists_invariant (fun _ => "u0") "2024-01-01" [LedgerOp.delE "zzz"]

/-- When `update` finds a match, the rewritten list carries the same ids
as the original list, provided the update does not set `id`. -/
theorem updateFirst_map_id (entry_id : String) (f : UpdateFields)
    (hf : f.id = none) :
    ∀ (l : List Entry) (p : Entry × List Entry),
      updateFirst entry_id f l = some p → p.2.map Entry.id = l.map Entry.id := by
  intro l
  induction l with
  | nil => intro p hp; simp [updateFirst] at hp
  | cons e rest ih =>
    intro p hp
    simp only [updateFirst] at hp
    split at hp
    · cases hp
      simp [applyFields, hf]
    · cases hr : updateFirst entry_id f rest with
      | none => rw [hr] at hp; simp at hp
      | some q =>
        rw [hr] at hp
        simp only [Option.map_some'] at hp
        cases hp
        simp [ih q hr]

/-- C7 (amended): `update` never changes any entry's id as long as the
provided fields do not include a (non-`None`) `id` — which is the case
for every call the application makes.  (Passing `id` as a keyword
argument does overwrite it, see `update_can_overwrite_id`.) -/
theorem update_preserves_ids (entry_id : String) (f : UpdateFields) (s : Ledger)
    (hf : f.id = none) :
    (Ledger.update entry_id f s).2.entries.map Entry.id =
      s.entries.map Entry.id := by
  unfold Ledger.update
  cases hu : updateFirst entry_id f s.entries with
  | none => rfl
  | some p =>
    obtain ⟨e1, l1⟩ := p
    exact updateFirst_map_id entry_id f hf s.entries (e1, l1) hu

/-- C7 counterexample: updating with the field set `{id: "b"}` rewrites
the id of the matching entry, so ids are not immutable under arbitrary
`update` calls. -/
theorem update_can_overwrite_id :
    (Ledger.update "a" fSetId sOne).2.entries.map Entry.id ≠
      sOne.entries.map Entry.id := by
  decide

/-- C7 witness: a title-only update leaves the ids unchanged. -/
theorem update_preserves_ids_witness :
    fSetTitle.id = none ∧
      (Ledger.update "a" fSetTitle sOne).2.entries.map Entry.id =
        sOne.entries.map Entry.id :=
  ⟨rfl, update_preserves_ids "a" fSetTitle sOne rfl⟩

/-- C8: construction always succeeds; an absent file and a failed
read/parse both leave the collection empty, and a parsed record array is
reconstructed entrywise through `from_dict`. -/
theorem load_fallback_behavior (gen : Nat → String) (today : String) :
    (ledgerInit gen today none).entries = [] ∧
    (∀ m, (ledgerInit gen today (some (.err m))).entries = []) ∧
    (∀ recs, (ledgerInit gen today (some (.ok recs))).entries =
      recs.mapIdx fun i d => Entry.from_dict (gen i) today d) :=
  ⟨rfl, fun _ => rfl, fun _ => rfl⟩

/-- C8 witness: a corrupt data file yields an empty collection. -/
theorem load_fallback_behavior_witness :
    (ledgerInit (fun i => toString i) "2024-01-01"
      (some (.err "bad json"))).entries = [] :=
  (load_fallback_behavior (fun i => toString i) "2024-01-01").2.1 "bad json"

/-- C9: `export_csv` returns the path it was given together with the
written rows: first the header `id,date,title,category,kind,amount,note`,
then one row per entry, in `list_all` order and in that column order;
a one-entry ledger yields exactly two rows. -/
theorem export_csv_format (csv_path : String) (s : Ledger) :
    (Ledger.export_csv csv_path s).1 = csv_path ∧
    (Ledger.export_csv csv_path s).2 =
      ["id", "date", "title", "category", "kind", "amount", "note"] ::
        (Ledger.list_all s).map csvRow ∧
    (∀ e : Entry, csvRow e =
      [e.id, e.date, e.title, e.category, e.kind, toString e.amount, e.note]) ∧
    (s.entries.length = 1 → (Ledger.export_csv csv_path s).2.length = 2) := by
  refine ⟨rfl, rfl, fun _ => rfl, ?_⟩
  intro h
  simp [Ledger.export_csv, Ledger.list_all, List.length_insertionSort, h]

/-- C9 witness: the export of the one-entry ledger has exactly two
rows. -/
theorem export_csv_format_witness :
    sOne.entries.length = 1 ∧
      (Ledger.export_csv "export.csv" sOne).2.length = 2 :=
  ⟨rfl, (export_csv_format "export.csv" sOne).2.2.2 rfl⟩

/-- C10: `delete` filters out every entry carrying the given id — with
duplicated ids, none of the carriers survives. -/
theorem delete_removes_all_matches (entry_id : String) (s : Ledger) :
    (Ledger.delete entry_id s).2.entries =
      s.entries.filter (fun e => !(e.id == entry_id)) ∧
    ∀ e ∈ (Ledger.delete entry_id s).2.entries, e.id ≠ entry_id := by
  have h1 : (Ledger.delete entry_id s).2.entries =
      s.entries.filter (fun e => !(e.id == entry_id)) := by
    unfold Ledger.delete
    split
    · rfl
    · rfl
  refine ⟨h1, ?_⟩
  intro e he
  rw [h1] at he
  simpa using (List.mem_filter.mp he).2

/-- C10 witness: deleting id `"d"` from a ledger holding two distinct
entries that share it removes both. -/
theorem delete_removes_all_matches_witness :
    (Ledger.delete "d" sDup).2.entries =
        sDup.entries.filter (fun e => !(e.id == "d")) ∧
      sDup.entries.filter (fun e => !(e.id == "d")) = [] :=
  ⟨(delete_removes_all_matches "d" sDup).1, by decide⟩
